import Mathlib

set_option maxRecDepth 4000

attribute [local semireducible] Rat.add Rat.mul Rat.inv Rat.sub Rat.ofScientific

deriving instance DecidableEq for Except

namespace Xdrt

/-!
Shallow embedding of the `xdrt` package (XDR volume reader and XVI session
reconstruction), translated from `xdrt/xvi_reader.py`, `xdrt/xdr_reader.py`
and `xdrt/utils.py`.  Scan timestamps are modelled as integers (seconds),
Python floats as rationals, byte streams as lists of naturals below 256.
-/

/-! ### XVI session reconstruction (`xvi_reader.py`, `XVIFile.__parse_exports`)

A scan is identified by its export timestamp (seconds).  The partition into
fractions only looks at timestamps, so the model carries timestamps plus the
`fraction_number` / `image_number_in_fraction` assignments the loop writes
onto each scan. -/

structure FractionM where
  fraction : Nat
  scans : List Int
  deriving DecidableEq

/-- `XVIFraction.num_scans = len(scans)`. -/
def FractionM.numScans (f : FractionM) : Nat := f.scans.length

/-- The `fraction_number` / `image_number_in_fraction` pair written onto one
scan by the partition loop. -/
structure ScanAsg where
  t : Int
  fraction_number : Nat
  image_number_in_fraction : Nat
  deriving DecidableEq

/-- Stable insertion of a timestamp into an already sorted list (model of the
stable `scans.sort(key=lambda x: x.datetime)`). -/
def insertT (x : Int) : List Int → List Int
  | [] => [x]
  | y :: ys => if x < y then x :: y :: ys else y :: insertT x ys

/-- Chronological sort of the scan timestamps. -/
def sortTs (l : List Int) : List Int := l.foldl (fun acc x => insertT x acc) []

/-- The loop state of `XVIFile.__parse_exports` (lines 99–121):
`prev_datetime`, `curr_fraction`, `fractions`, `image_number_in_fraction`,
`curr_fraction_num`, plus the per-scan assignments in scan order. -/
structure FracState where
  prev : Option Int
  curr : List Int
  fracs : List FractionM
  img : Nat
  fnum : Nat
  asgs : List ScanAsg
  deriving DecidableEq

/-- One iteration of the partition loop (lines 104–121).  A gap of more than
`6 * 60 * 60` seconds since the previous scan closes the current fraction
(with the old `curr_fraction_num`) and starts a new one. -/
def fracStep (st : FracState) (t : Int) : FracState :=
  let prev := match st.prev with | none => t | some p => p
  let timeDiff := t - prev
  if timeDiff > 21600 then
    { prev := some t
      curr := [t]
      fracs := st.fracs ++ [⟨st.fnum, st.curr⟩]
      img := 1
      fnum := st.fnum + 1
      asgs := st.asgs ++ [⟨t, st.fnum + 1, 0⟩] }
  else
    { prev := some t
      curr := st.curr ++ [t]
      fracs := st.fracs
      img := st.img + 1
      fnum := st.fnum
      asgs := st.asgs ++ [⟨t, st.fnum, st.img⟩] }

/-- The partition loop over the sorted scans. -/
def buildFractions (ts : List Int) : FracState :=
  ts.foldl fracStep { prev := none, curr := [], fracs := [], img := 0, fnum := 0, asgs := [] }

/-- Line 124–125: `if curr_fraction_num > 0: fractions.append(...)`. -/
def finalFractions (st : FracState) : List FractionM :=
  if st.fnum > 0 then st.fracs ++ [⟨st.fnum, st.curr⟩] else st.fracs

inductive XviErr where
  | inconsistentSbrtClassification
  deriving DecidableEq

/-- The parts of `XVIFile` that `__parse_exports` fills in. -/
structure SessionM where
  fractions : List FractionM
  scans : List ScanAsg
  is_sbrt : Bool
  num_fractions : Nat
  num_scans : Nat
  deriving DecidableEq

/-- `XVIFile.__parse_exports` restricted to its timestamp-driven part
(lines 96–142): sort the scans, partition into fractions, classify SBRT
(`if all(has_multiple_scans) and has_multiple_scans`), and raise when the
per-fraction `has_multiple_scans` flags disagree (`len(set(...)) > 1`). -/
def parseExports (ts : List Int) : Except XviErr SessionM :=
  let sorted := sortTs ts
  let st := buildFractions sorted
  let fractions := finalFractions st
  let hasMultipleScans := fractions.map (fun f => decide (1 < f.numScans))
  let isSbrt := hasMultipleScans.all id && !hasMultipleScans.isEmpty
  if hasMultipleScans.contains true && hasMultipleScans.contains false then
    .error .inconsistentSbrtClassification
  else
    .ok { fractions := fractions
          scans := st.asgs
          is_sbrt := isSbrt
          num_fractions := fractions.length
          num_scans := st.asgs.length }

/-- The per-fraction flag list contains `true` iff some fraction has more
than one scan. -/
theorem containsTrueIff (F : List FractionM) :
    ((F.map (fun f => decide (1 < f.numScans))).contains true = true) ↔
      ∃ f ∈ F, 1 < f.numScans := by
  induction F with
  | nil => simp
  | cons a l ih => by_cases h : 1 < a.numScans <;> simp [h, ih]

/-- The per-fraction flag list contains `false` iff some fraction has at most
one scan. -/
theorem containsFalseIff (F : List FractionM) :
    ((F.map (fun f => decide (1 < f.numScans))).contains false = true) ↔
      ∃ f ∈ F, f.numScans ≤ 1 := by
  induction F with
  | nil => simp
  | cons a l ih =>
    by_cases h : 1 < a.numScans
    · simp [h, ih, Nat.not_le.mpr h]
    · simp [h, ih, Nat.not_lt.mp h]

/-- `all(has_multiple_scans)` iff every fraction has more than one scan. -/
theorem allMultIff (F : List FractionM) :
    ((F.map (fun f => decide (1 < f.numScans))).all id = true) ↔
      ∀ f ∈ F, 1 < f.numScans := by
  induction F with
  | nil => simp
  | cons a l ih => by_cases h : 1 < a.numScans <;> simp [h, ih]

/-- The Python truthiness test `and has_multiple_scans` on the flag list. -/
theorem notIsEmptyIff (F : List FractionM) :
    ((!(F.map (fun f => decide (1 < f.numScans))).isEmpty) = true) ↔ F ≠ [] := by
  cases F <;> simp

end Xdrt

namespace Xdrt

/-- C1: the claim says a session whose scans all lie within 6 hours of their
predecessor yields exactly one fraction containing every scan.  Evaluating
the code on two scans one hour apart instead yields a session with an empty
fractions list and `num_fractions = 0` (the guard `curr_fraction_num > 0` on
line 124 skips the trailing append although scans exist), while both scans
were still assigned `fraction_number = 0`. -/
theorem C1_fraction_partition_bug_eval :
    parseExports [0, 3600] =
      .ok { fractions := []
            scans := [⟨0, 0, 0⟩, ⟨3600, 0, 1⟩]
            is_sbrt := false
            num_fractions := 0
            num_scans := 2 } := by decide

/-- C2 counterexample: for the session with no scans the fractions list is
empty, so "every fraction contains more than one scan" holds vacuously
(the Boolean `all` evaluates to `true`), yet `is_sbrt` is `false`; the
claimed equivalence fails. -/
theorem C2_sbrt_iff_counterexample :
    (parseExports []).map
        (fun s => (s.fractions.all (fun f => decide (1 < f.numScans)), s.is_sbrt)) =
      .ok (true, false) := by decide

/-- C2 (amended): over the fractions the code actually builds, reconstruction
fails with the inconsistency error exactly when some fraction has at most one
scan while another has more than one; on success `is_sbrt` is true iff the
fractions list is NONEMPTY and every fraction contains more than one scan;
and fraction sizes `[2,2,2]` give `is_sbrt = true`, `[1,1,1]` give
`is_sbrt = false`, `[2,1,2]` raise the inconsistency error. -/
theorem C2_sbrt_classification_amended (ts : List Int) :
    ((∃ f ∈ finalFractions (buildFractions (sortTs ts)), f.numScans ≤ 1) ∧
      (∃ f ∈ finalFractions (buildFractions (sortTs ts)), 1 < f.numScans) →
        parseExports ts = .error .inconsistentSbrtClassification) ∧
    (∀ s, parseExports ts = .ok s →
        s.fractions = finalFractions (buildFractions (sortTs ts)) ∧
        (s.is_sbrt = true ↔ s.fractions ≠ [] ∧ ∀ f ∈ s.fractions, 1 < f.numScans)) ∧
    (parseExports [0, 1, 30000, 30001, 60000, 60001]).map (fun s => s.is_sbrt) = .ok true ∧
    (parseExports [0, 30000, 60000]).map (fun s => s.is_sbrt) = .ok false ∧
    parseExports [0, 1, 30000, 60000, 60001] = .error .inconsistentSbrtClassification := by
  refine ⟨?_, ?_, by decide, by decide, by decide⟩
  · rintro ⟨⟨f₁, hf₁, hle⟩, ⟨f₂, hf₂, hlt⟩⟩
    have hc : (((finalFractions (buildFractions (sortTs ts))).map
          (fun f => decide (1 < f.numScans))).contains true &&
        ((finalFractions (buildFractions (sortTs ts))).map
          (fun f => decide (1 < f.numScans))).contains false) = true := by
      rw [Bool.and_eq_true, containsTrueIff, containsFalseIff]
      exact ⟨⟨f₂, hf₂, hlt⟩, ⟨f₁, hf₁, hle⟩⟩
    unfold parseExports
    rw [if_pos hc]
  · intro s hs
    unfold parseExports at hs
    by_cases hc : (((finalFractions (buildFractions (sortTs ts))).map
          (fun f => decide (1 < f.numScans))).contains true &&
        ((finalFractions (buildFractions (sortTs ts))).map
          (fun f => decide (1 < f.numScans))).contains false) = true
    · rw [if_pos hc] at hs
      exact absurd hs (by simp)
    · rw [if_neg hc] at hs
      injection hs with h
      subst h
      refine ⟨rfl, ?_⟩
      show (((finalFractions (buildFractions (sortTs ts))).map
          (fun f => decide (1 < f.numScans))).all id &&
        !((finalFractions (buildFractions (sortTs ts))).map
          (fun f => decide (1 < f.numScans))).isEmpty) = true ↔ _
      rw [Bool.and_eq_true, allMultIff, notIsEmptyIff, and_comm]

/-- C2 witness: instantiating the amended theorem at the mixed session with
fraction sizes `[2,1]` discharges its hypotheses and yields the hard error. -/
theorem C2_sbrt_classification_amended_witness :
    parseExports [0, 1, 30000] = .error .inconsistentSbrtClassification :=
  (C2_sbrt_classification_amended [0, 1, 30000]).1 (by decide)

end Xdrt

namespace Xdrt

/-! ### XDR header text scanning (`xdr_reader.py`, `read`, lines 295–319)

The accumulated header text is a list of characters (undecodable bytes were
replaced by the sentinel `__#ERR#__` upstream).  `read` splits it into lines
with `str.splitlines`, keeps the lines `l` with `l not in string.whitespace`
(a SUBSTRING test against the string `" \t\n\r\x0b\x0c"`), skips lines
starting with `"# "`, and splits each survivor on `"="`, the value being
`splitted[1]` when at least one `"="` occurs. -/

/-- The characters of Python's `string.whitespace`, in order. -/
def pyWhitespace : List Char := [' ', '\t', '\n', '\r', Char.ofNat 11, Char.ofNat 12]

/-- Does `hay` start with `needle`? -/
def startsWithSeq : List Char → List Char → Bool
  | [], _ => true
  | _ :: _, [] => false
  | a :: as, b :: bs => a == b && startsWithSeq as bs

/-- Python's substring test `needle in hay`: does `needle` occur as a
contiguous run inside `hay`? -/
def containsSeq (needle : List Char) : List Char → Bool
  | [] => needle.isEmpty
  | b :: hs => startsWithSeq needle (b :: hs) || containsSeq needle hs

/-- Line-break characters recognised by `str.splitlines` that can occur in
the decoded header (the decoded characters are ASCII). -/
def isLineBreak (c : Char) : Bool :=
  c == '\n' || c == '\r' || c == Char.ofNat 11 || c == Char.ofNat 12 ||
    c == Char.ofNat 28 || c == Char.ofNat 29 || c == Char.ofNat 30

/-- Worker for `splitLinesPy`; `acc` is the current line, reversed. -/
def splitLinesGo : List Char → List Char → List (List Char)
  | [], acc => if acc.isEmpty then [] else [acc.reverse]
  | '\r' :: '\n' :: rest, acc => acc.reverse :: splitLinesGo rest []
  | c :: rest, acc =>
      if isLineBreak c then acc.reverse :: splitLinesGo rest []
      else splitLinesGo rest (c :: acc)

/-- Model of `str.splitlines` (a trailing break yields no empty last line). -/
def splitLinesPy (text : List Char) : List (List Char) := splitLinesGo text []

/-- Prepend a character to the first chunk of a chunk list. -/
def consHead (x : Char) : List (List Char) → List (List Char)
  | t :: ts => (x :: t) :: ts
  | [] => [[x]]

/-- Model of `str.split(sep)` for a single-character separator: `"".split`
gives `[""]`, and every separator occurrence opens a new chunk. -/
def splitOnChar (c : Char) : List Char → List (List Char)
  | [] => [[]]
  | x :: xs =>
      if x = c then [] :: splitOnChar c xs
      else consHead x (splitOnChar c xs)

/-- The sentinel substituted for an undecodable byte (line 301). -/
def sentinelChars : List Char := "__#ERR#__".data

/-- The placeholder value recorded when a value contains the sentinel. -/
def decodingErrChars : List Char := "#DECODING_ERROR#".data

/-- Lines 313–319 applied to the chunks of one line: with a single chunk the
key maps to the empty value; otherwise the value is `splitted[1]` — only the
segment between the first and second `"="` — with the decoding-error
placeholder substituted when it contains the sentinel. -/
def pairOfChunks : List (List Char) → List Char × List Char
  | [k] => (k, [])
  | k :: v :: _ => (k, if containsSeq sentinelChars v then decodingErrChars else v)
  | [] => ([], [])

/-- Lines 312–319: split a kept line around `"="` and build its pair. -/
def splitLineKV (line : List Char) : List Char × List Char :=
  pairOfChunks (splitOnChar '=' line)

/-- `line.startswith("# ")`. -/
def startsHash (l : List Char) : Bool :=
  match l with
  | '#' :: ' ' :: _ => true
  | _ => false

/-- Lines 304–319 applied to the split lines: keep the lines that are not
substrings of `string.whitespace`, skip comment lines, split the rest. -/
def linePairs (lines : List (List Char)) : List (List Char × List Char) :=
  ((lines.filter (fun l => !(containsSeq l pyWhitespace))).filter
      (fun l => !startsHash l)).map splitLineKV

/-- The header-text scanner: accumulated text to ordered key/value pairs. -/
def headerPairsOfText (text : List Char) : List (List Char × List Char) :=
  linePairs (splitLinesPy text)

/-- Python-dict lookup over the ordered pairs: a later assignment to the
same key overwrites an earlier one. -/
def dictGet (d : List (List Char × List Char)) (k : List Char) : Option (List Char) :=
  (d.reverse.find? (fun p => p.1 == k)).map (fun p => p.2)

/-- `splitOnChar` never returns an empty chunk list. -/
theorem splitOnChar_ne_nil (c : Char) (l : List Char) : splitOnChar c l ≠ [] := by
  induction l with
  | nil => simp [splitOnChar]
  | cons x xs ih =>
    by_cases h : x = c
    · simp [splitOnChar, h]
    · simp only [splitOnChar, if_neg h]
      cases hs : splitOnChar c xs with
      | nil => simp [consHead]
      | cons t ts => simp [consHead]

/-- Splitting around the first separator occurrence. -/
theorem splitOnChar_append (c : Char) (k v : List Char) (hk : c ∉ k) :
    splitOnChar c (k ++ c :: v) = k :: splitOnChar c v := by
  induction k with
  | nil => simp [splitOnChar]
  | cons x xs ih =>
    have hx : ¬x = c := fun h => hk (h ▸ List.mem_cons_self x xs)
    have hxs : c ∉ xs := fun h => hk (List.mem_cons_of_mem x h)
    show splitOnChar c (x :: (xs ++ c :: v)) = (x :: xs) :: splitOnChar c v
    rw [splitOnChar, if_neg hx, ih hxs, consHead]

/-- The first chunk of a split is the longest separator-free prefix. -/
theorem splitOnChar_head (c : Char) (v : List Char) :
    ∃ ts, splitOnChar c v = v.takeWhile (fun x => x ≠ c) :: ts := by
  induction v with
  | nil => exact ⟨[], rfl⟩
  | cons x xs ih =>
    by_cases h : x = c
    · refine ⟨splitOnChar c xs, ?_⟩
      simp [splitOnChar, h, List.takeWhile_cons]
    · obtain ⟨ts, hts⟩ := ih
      refine ⟨ts, ?_⟩
      simp [splitOnChar, h, hts, consHead, List.takeWhile_cons]

/-- A line with no separator is a single chunk. -/
theorem splitOnChar_not_mem (c : Char) (l : List Char) (h : c ∉ l) :
    splitOnChar c l = [l] := by
  induction l with
  | nil => rfl
  | cons x xs ih =>
    have hx : ¬x = c := fun hh => h (hh ▸ List.mem_cons_self x xs)
    have hxs : c ∉ xs := fun hh => h (List.mem_cons_of_mem x hh)
    simp [splitOnChar, hx, ih hxs, consHead]

end Xdrt

namespace Xdrt

/-- C4 counterexample: on the header text `"  \nkey=a=b"` the scanner keeps
the whitespace-only line of two spaces (it is not a substring of
`string.whitespace`) as a key with empty value, and maps `key` to `"a"` —
only the segment between the first and second `"="` — not to `"a=b"` as the
claim states. -/
theorem C4_scanner_counterexample :
    headerPairsOfText ("  \nkey=a=b".data) =
        [("  ".data, []), ("key".data, "a".data)] ∧
      headerPairsOfText ("  \nkey=a=b".data) ≠ [("key".data, "a=b".data)] := by
  constructor
  · decide
  · decide

/-- C4 (amended): a kept line `k ++ "=" ++ v` with no `"="` in `k` (and no
decode sentinel in the value) yields key `k` and, as value, the longest
`"="`-free prefix of `v` — the remainder after the SECOND `"="` is
discarded; a line with no `"="` maps to the empty value; a line that is a
substring of `string.whitespace` is dropped; and a whitespace-only line of
two spaces is NOT dropped but becomes a key with empty value. -/
theorem C4_scanner_amended (k v l : List Char) :
    (('=' ∉ k) →
      ¬(containsSeq sentinelChars (v.takeWhile (fun x => x ≠ '=')) = true) →
      splitLineKV (k ++ '=' :: v) = (k, v.takeWhile (fun x => x ≠ '='))) ∧
    (('=' ∉ l) → splitLineKV l = (l, [])) ∧
    ((containsSeq l pyWhitespace = true) → linePairs [l] = []) ∧
    linePairs [[' ', ' ']] = [([' ', ' '], [])] := by
  refine ⟨?_, ?_, ?_, by decide⟩
  · intro hk hv
    obtain ⟨ts, hts⟩ := splitOnChar_head '=' v
    unfold splitLineKV
    rw [splitOnChar_append '=' k v hk, hts]
    simp only [Bool.not_eq_true, ne_eq, decide_not] at hv
    simp [pairOfChunks, hv]
  · intro hl
    unfold splitLineKV
    rw [splitOnChar_not_mem '=' l hl]
    rfl
  · intro hl
    simp [linePairs, hl]

/-- C4 witness: instantiating the amended theorem on the line `key=a=b`. -/
theorem C4_scanner_amended_witness :
    splitLineKV ("key".data ++ '=' :: "a=b".data) = ("key".data, "a".data) := by
  have h := (C4_scanner_amended ("key".data) ("a=b".data) []).1 (by decide) (by decide)
  exact h.trans (by decide)

end Xdrt

namespace Xdrt

/-! ### Python numeric literals

`int()` and `float()` on header values; Python floats are modelled as exact
rationals, so a decimal literal denotes its exact decimal value.  The models
cover the finite decimal forms (optional sign, digits, optional fraction,
optional exponent); `None` is a `ValueError`. -/

/-- Is `c` a Python whitespace character? -/
def isPySpace (c : Char) : Bool := pyWhitespace.contains c

/-- `str.strip()`. -/
def stripChars (l : List Char) : List Char :=
  ((l.dropWhile isPySpace).reverse.dropWhile isPySpace).reverse

/-- The value of a nonempty all-digit run, `none` otherwise. -/
def digitsValGo : Nat → List Char → Option Nat
  | acc, [] => some acc
  | acc, c :: rest =>
      if c.isDigit then digitsValGo (acc * 10 + (c.toNat - 48)) rest else none

/-- The value of a nonempty all-digit run, `none` otherwise. -/
def digitsVal (l : List Char) : Option Nat :=
  if l.isEmpty then none else digitsValGo 0 l

/-- Model of Python `int(s)`: surrounding whitespace, an optional sign and a
nonempty digit run. -/
def parseIntChars (s : List Char) : Option Int :=
  match stripChars s with
  | '+' :: rest => (digitsVal rest).map (fun n => (n : Int))
  | '-' :: rest => (digitsVal rest).map (fun n => -(n : Int))
  | rest => (digitsVal rest).map (fun n => (n : Int))

/-- The mantissa of a float literal: digits with an optional decimal dot
(at least one digit on some side). -/
def parseMantissa (l : List Char) : Option ℚ :=
  match splitOnChar '.' l with
  | [a] => (digitsVal a).map (fun n => (n : ℚ))
  | [a, b] =>
      match digitsVal a, digitsVal b with
      | some n, some f => some ((n : ℚ) + (f : ℚ) / (10 : ℚ) ^ b.length)
      | some n, none => if b.isEmpty then some ((n : ℚ)) else none
      | none, some f => if a.isEmpty then some ((f : ℚ) / (10 : ℚ) ^ b.length) else none
      | none, none => none
  | _ => none

/-- A mantissa with an optional sign. -/
def parseSignedMantissa (l : List Char) : Option ℚ :=
  match l with
  | '+' :: rest => parseMantissa rest
  | '-' :: rest => (parseMantissa rest).map (fun q => -q)
  | rest => parseMantissa rest

/-- An exponent: optional sign and a nonempty digit run. -/
def parseExpPart (l : List Char) : Option Int :=
  match l with
  | '+' :: rest => (digitsVal rest).map (fun n => (n : Int))
  | '-' :: rest => (digitsVal rest).map (fun n => -(n : Int))
  | rest => (digitsVal rest).map (fun n => (n : Int))

/-- Scale a mantissa by a power of ten. -/
def applyExp (m : ℚ) (e : Int) : ℚ :=
  if 0 ≤ e then m * (10 : ℚ) ^ e.toNat else m / (10 : ℚ) ^ (-e).toNat

/-- Model of Python `float(s)` on finite decimal literals. -/
def parseFloatChars (s : List Char) : Option ℚ :=
  let t := (stripChars s).map Char.toLower
  match splitOnChar 'e' t with
  | [m] => parseSignedMantissa m
  | [m, ex] =>
      match parseSignedMantissa m, parseExpPart ex with
      | some q, some e => some (applyExp q e)
      | _, _ => none
  | _ => none

/-- `float()` over a token list (the list comprehension on line 143). -/
def parseFloatList : List (List Char) → Option (List ℚ)
  | [] => some []
  | t :: ts =>
      match parseFloatChars t, parseFloatList ts with
      | some q, some qs => some (q :: qs)
      | _, _ => none

/-- Worker for `splitWs`; `acc` is the current token, reversed. -/
def splitWsGo : List Char → List Char → List (List Char)
  | [], acc => if acc.isEmpty then [] else [acc.reverse]
  | c :: rest, acc =>
      if isPySpace c then
        if acc.isEmpty then splitWsGo rest [] else acc.reverse :: splitWsGo rest []
      else splitWsGo rest (c :: acc)

/-- Model of `str.split()` with no argument: whitespace-delimited tokens and
no empty tokens.  Lines 140–141 (`" ".join(s.split())` then `.split(" ")`)
reduce to exactly this token list. -/
def splitWs (l : List Char) : List (List Char) := splitWsGo l []

end Xdrt

namespace Xdrt

/-! ### numpy floating-point values

The extents and spacing are numpy 64-bit floats.  Finite values are exact
rationals; the infinities and NaN that numpy produces silently (for example
on division by zero) are explicit constructors. -/

inductive NpVal where
  | fin (q : ℚ)
  | inf
  | negInf
  | nan
  deriving DecidableEq

/-- numpy elementwise subtraction. -/
def npSub : NpVal → NpVal → NpVal
  | .fin a, .fin b => .fin (a - b)
  | .nan, _ => .nan
  | _, .nan => .nan
  | .inf, .inf => .nan
  | .inf, .negInf => .inf
  | .inf, .fin _ => .inf
  | .negInf, .negInf => .nan
  | .negInf, .inf => .negInf
  | .negInf, .fin _ => .negInf
  | .fin _, .inf => .negInf
  | .fin _, .negInf => .inf

/-- numpy division by an integer: division by zero silently yields
`inf`, `-inf` or `nan` by the sign of the numerator (a runtime warning,
never an exception). -/
def npDivInt (v : NpVal) (m : Int) : NpVal :=
  if m = 0 then
    match v with
    | .fin q => if 0 < q then .inf else if q < 0 then .negInf else .nan
    | .inf => .inf
    | .negInf => .negInf
    | .nan => .nan
  else
    match v with
    | .fin q => .fin (q / (m : ℚ))
    | .inf => if 0 < m then .inf else .negInf
    | .negInf => if 0 < m then .negInf else .inf
    | .nan => .nan

/-- Floor of a rational, computable by the kernel. -/
def ratFloor (y : ℚ) : Int := Int.fdiv y.num (y.den : Int)

/-- Round half to even (the rounding of `np.round`). -/
def roundHalfEven (y : ℚ) : Int :=
  let f := ratFloor y
  let r := y - f
  if r < 1 / 2 then f
  else if 1 / 2 < r then f + 1
  else if f % 2 = 0 then f else f + 1

/-- `np.round(q, 3)`. -/
def round3 (q : ℚ) : ℚ := (roundHalfEven (q * 1000) : ℚ) / 1000

/-- `np.round(·, 3)` on a value: infinities and NaN pass through. -/
def npRound3 : NpVal → NpVal
  | .fin q => .fin (round3 q)
  | v => v

/-- `×10` used when extents are read (infinities and NaN pass through). -/
def npScale10 : NpVal → NpVal
  | .fin q => .fin (10 * q)
  | v => v

end Xdrt

namespace Xdrt

/-! ### XDR header model (`xdr_reader.py`, `XDRHeader`)

The raw header dictionary is the ordered pair list produced by the scanner
(later assignments overwrite earlier ones).  Errors carry the Python
exception that `__init__` raises. -/

/-- A raw header dictionary. -/
abbrev HDict : Type := List (List Char × List Char)

/-- `key in dict`. -/
def dictHas (d : HDict) (k : List Char) : Bool := (dictGet d k).isSome

inductive HdrErr where
  | requiredKeyMissing (key : List Char)
  | dimKeyMissing
  | fieldNotImplemented
  | keyMissing (key : List Char)
  | dtypeKeyError
  | intParseError
  | floatParseError
  | matrixReshapeError
  | phaseLenTypeError
  | phaseNdimError
  | phaseSumError
  | shapeIndexError
  deriving DecidableEq

/-- The typed header.  `phase` is whatever the constructor leaves in
`self.phase` when it returns. -/
structure XDRHeaderM where
  url : Option (List Char)
  field : List Char
  ndim : Int
  shapeFile : List Int
  shape : List Int
  veclen : Int
  size : Int
  compression : Int
  original_dtype : List Char
  dtype : List Char
  scan_to_siddon : Option (List ℚ)
  match_to_siddon : Option (List ℚ)
  phase : Option (List ℚ)
  metadata : List (List Char × List Char)
  external_data : Option (List Char)
  min_ext : List NpVal
  max_ext : List NpVal
  deriving DecidableEq

/-- `XDR_DTYPE_TO_PYTHON` (lines 27–34). -/
def xdrDtypeToPython (s : List Char) : Option (List Char) :=
  if s = "xdr_real".data then some ("f4".data)
  else if s = "xdr_float".data then some ("f4".data)
  else if s = "xdr_double".data then some ("f8".data)
  else if s = "xdr_short".data then some ("i2".data)
  else if s = "xdr_integer".data then some ("i4".data)
  else if s = "byte".data then some ("uint8".data)
  else none

/-- `XDR_METADATA_KEYS` (lines 36–52). -/
def xdrMetadataKeys : List (List Char) :=
  ["#$VERSION".data, "#$PATIENT_ID".data, "#$VOLUME_ID".data, "#$DATE".data,
    "#$TIME".data, "#$MODALITY".data, "#$XYZ_ORIENT".data, "#$LOCATION".data,
    "#$SLICE_AXIS".data, "#$VOL_FORMAT".data, "#$PAT_SYSTEM".data,
    "#$PAT_TO_WLD".data, "#$OWNER".data, "#$SOURCE".data, "#$COMMENT".data]

/-- The `dim{i}` reads of lines 97–101, in ascending order. -/
def readDimsGo (d : HDict) : List Nat → Except HdrErr (List Int)
  | [] => .ok []
  | i :: rest =>
      match dictGet d ("dim".data ++ (toString i).data) with
      | none => .error .dimKeyMissing
      | some v =>
          match parseIntChars v with
          | none => .error .intParseError
          | some k => (readDimsGo d rest).map (fun l => k :: l)

/-- One matrix-valued key of `parse_array_keys` (lines 133–143, 162–163):
skipped when absent or empty, parsed as whitespace-separated floats,
reshaped to 4×4 (16 entries). -/
def parseMatrixKey (d : HDict) (k : List Char) : Except HdrErr (Option (List ℚ)) :=
  match dictGet d k with
  | none => .ok none
  | some v =>
      if v.isEmpty then .ok none
      else
        match parseFloatList (splitWs v) with
        | none => .error .floatParseError
        | some fs => if fs.length = 16 then .ok (some fs) else .error .matrixReshapeError

/-- The `#$$PH` branch of `parse_array_keys` (lines 144–161).  The
length-mismatch branch evaluates `len(self.shape[0])` while FORMATTING its
message, so it raises `TypeError`, not the descriptive `ValueError`;
`self.shape[0]` on an empty shape raises `IndexError`. -/
def parsePhaseKey (d : HDict) (shape : List Int) (ndim : Int) :
    Except HdrErr (Option (List ℚ)) :=
  match dictGet d ("#$$PH".data) with
  | none => .ok none
  | some v =>
      if v.isEmpty then .ok none
      else
        match parseFloatList (splitWs v) with
        | none => .error .floatParseError
        | some fs =>
            match shape.head? with
            | none => .error .shapeIndexError
            | some s0 =>
                if (fs.length : Int) ≠ s0 then .error .phaseLenTypeError
                else if ndim ≠ 4 then .error .phaseNdimError
                else if ¬((0.9999 : ℚ) ≤ fs.sum ∧ fs.sum ≤ (1.0001 : ℚ)) then
                  .error .phaseSumError
                else .ok (some fs)

/-- Lines 117–122: collect the metadata attributes (key without the leading
`#$`, lowercased) whose values are nonempty. -/
def metadataOf (d : HDict) : List (List Char × List Char) :=
  xdrMetadataKeys.filterMap (fun k =>
    match dictGet d k with
    | none => none
    | some v => if v.isEmpty then none else some ((k.drop 2).map Char.toLower, v))

/-- Lines 124–130: external-payload detection.  The path joins
`xdr_filename` (with a `/` when nonempty) and the first space-delimited
token of `variable 1 file`. -/
def externalOf (d : HDict) : Except HdrErr (Option (List Char)) :=
  match dictGet d ("variable 1 file".data) with
  | none => .ok none
  | some v =>
      match dictGet d ("xdr_filename".data) with
      | none => .error (.keyMissing ("xdr_filename".data))
      | some p =>
          let pref := if p.isEmpty then p else p ++ ['/']
          .ok (some (pref ++ (splitOnChar ' ' v).headI))

/-- `XDRHeader.__parse_header` (lines 74–130), including the
`parse_array_keys` call on line 115.  `self.phase` here still holds the
parsed phase vector. -/
def parseHeaderCore (d : HDict) : Except HdrErr XDRHeaderM := do
  let url := (dictGet d ("#$$url".data)).map stripChars
  if (dictGet d ("ndim".data)).isNone then throw (.requiredKeyMissing ("ndim".data))
  if (dictGet d ("field".data)).isNone then throw (.requiredKeyMissing ("field".data))
  let fieldv := (dictGet d ("field".data)).getD []
  if ¬(fieldv = "uniform".data ∨ fieldv = "rectilinear".data) then
    throw .fieldNotImplemented
  let ndim ← match parseIntChars ((dictGet d ("ndim".data)).getD []) with
    | none => throw .intParseError
    | some n => pure n
  let shapeFile ← readDimsGo d ((List.range ndim.toNat).map (fun i => i + 1))
  let veclenS ← match dictGet d ("veclen".data) with
    | none => throw (.keyMissing ("veclen".data))
    | some v => pure v
  let veclen ← match parseIntChars veclenS with
    | none => throw .intParseError
    | some n => pure n
  let shape := shapeFile.reverse
  let size := shapeFile.foldl (fun a b => a * b) 1
  let compression ← match dictGet d ("nki_compression".data) with
    | none => pure (0 : Int)
    | some v =>
        match parseIntChars v with
        | none => throw .intParseError
        | some n => pure n
  let odt ← match dictGet d ("data".data) with
    | none => throw (.keyMissing ("data".data))
    | some v => pure v
  let dt ← match xdrDtypeToPython odt with
    | none => throw .dtypeKeyError
    | some v => pure v
  let sts ← parseMatrixKey d ("#$$ScanToSiddon".data)
  let mts ← parseMatrixKey d ("#$$MatchToSiddon".data)
  let ph ← parsePhaseKey d shape ndim
  let ext ← externalOf d
  pure { url := url
         field := fieldv
         ndim := ndim
         shapeFile := shapeFile
         shape := shape
         veclen := veclen
         size := size
         compression := compression
         original_dtype := odt
         dtype := dt
         scan_to_siddon := sts
         match_to_siddon := mts
         phase := ph
         metadata := metadataOf d
         external_data := ext
         min_ext := []
         max_ext := [] }

/-- `XDRHeader.__init__` (lines 65–72): run `__parse_header`, THEN set
`self.min_ext = []`, `self.max_ext = []` and `self.phase = None` — the last
assignment overwrites the phase vector that `parse_array_keys` stored. -/
def mkHeader (d : HDict) : Except HdrErr XDRHeaderM :=
  match parseHeaderCore d with
  | .error e => .error e
  | .ok h => .ok { h with min_ext := [], max_ext := [], phase := none }

/-- Build a dictionary from string pairs. -/
def mkD (l : List (String × String)) : HDict := l.map (fun p => (p.1.data, p.2.data))

end Xdrt

namespace Xdrt

/-! ### Spacing (`XDRHeader.spacing`, lines 165–185) -/

inductive SpErr where
  | extentsUnset
  | broadcastError
  | rectilinearLenMismatch
  | fieldInvalid
  deriving DecidableEq

/-- numpy broadcasting of a binary operation over two value arrays: equal
lengths act elementwise, a length-one side broadcasts, anything else is a
shape error. -/
def npBroadcast2 (f : NpVal → NpVal → NpVal) (a b : List NpVal) :
    Except SpErr (List NpVal) :=
  if a.length = b.length then .ok (List.zipWith f a b)
  else
    match a, b with
    | [x], _ => .ok (b.map (fun y => f x y))
    | _, [y] => .ok (a.map (fun x => f x y))
    | _, _ => .error .broadcastError

/-- numpy broadcasting of values against the integer shape array. -/
def npBroadcastShape (f : NpVal → Int → NpVal) (a : List NpVal) (b : List Int) :
    Except SpErr (List NpVal) :=
  if a.length = b.length then .ok (List.zipWith f a b)
  else
    match a, b with
    | [x], _ => .ok (b.map (fun n => f x n))
    | _, [n] => .ok (a.map (fun x => f x n))
    | _, _ => .error .broadcastError

/-- `XDRHeader.spacing` (lines 165–185).  The guard on line 168 is
`(not self.min_ext) and self.max_ext` — it only fires when `min_ext` is
empty while `max_ext` is not.  The uniform branch divides the extent
difference by `shape − 1` elementwise, the rectilinear branch computes
`(diff / shape) − 1` (the operator-precedence defect kept by the source),
and the result is rounded to three decimals. -/
def spacingOf (h : XDRHeaderM) : Except SpErr (List NpVal) :=
  if h.min_ext.isEmpty && !h.max_ext.isEmpty then .error .extentsUnset
  else
    match npBroadcast2 npSub h.max_ext h.min_ext with
    | .error e => .error e
    | .ok diff =>
        if h.field = "uniform".data then
          match npBroadcastShape (fun v n => npDivInt v (n - 1)) diff h.shapeFile with
          | .error e => .error e
          | .ok sp => .ok (sp.map npRound3)
        else if h.field = "rectilinear".data then
          if (diff.length : Int) ≠ h.ndim then .error .rectilinearLenMismatch
          else
            match npBroadcastShape (fun v n => npDivInt v n) diff h.shapeFile with
            | .error e => .error e
            | .ok sp0 => .ok ((sp0.map (fun v => npSub v (.fin 1))).map npRound3)
        else .error .fieldInvalid

/-- The spec-side formula for one spacing component: the rounded quotient
for dimensions of size at least 2, and the silent infinity / NaN that the
division by `n − 1 = 0` produces for a size-one dimension. -/
def spacingSpec (mn mx : ℚ) (n : Int) : NpVal :=
  if n = 1 then
    if 0 < mx - mn then .inf else if mx - mn < 0 then .negInf else .nan
  else .fin (round3 ((mx - mn) / ((n : ℚ) - 1)))

/-- Equal lengths broadcast elementwise. -/
theorem npBroadcast2_eq (f : NpVal → NpVal → NpVal) (a b : List NpVal)
    (h : a.length = b.length) : npBroadcast2 f a b = .ok (List.zipWith f a b) := by
  unfold npBroadcast2
  rw [if_pos h]

/-- Equal lengths broadcast elementwise against the shape. -/
theorem npBroadcastShape_eq (f : NpVal → Int → NpVal) (a : List NpVal) (b : List Int)
    (h : a.length = b.length) : npBroadcastShape f a b = .ok (List.zipWith f a b) := by
  unfold npBroadcastShape
  rw [if_pos h]

/-- Pointwise form of the uniform spacing chain. -/
theorem spacingZip (mn mx : List ℚ) (sf : List Int) :
    (List.zipWith (fun v n => npDivInt v (n - 1))
        (List.zipWith npSub (mx.map NpVal.fin) (mn.map NpVal.fin)) sf).map npRound3 =
      List.zipWith3 spacingSpec mn mx sf := by
  induction mn generalizing mx sf with
  | nil => cases mx <;> cases sf <;> simp [List.zipWith3]
  | cons a as ih =>
    cases mx with
    | nil => cases sf <;> simp [List.zipWith3]
    | cons b bs =>
      cases sf with
      | nil => simp [List.zipWith3]
      | cons n ns =>
        simp only [List.map_cons, List.zipWith_cons_cons, List.zipWith3, ih]
        congr 1
        show npRound3 (npDivInt (.fin (b - a)) (n - 1)) = spacingSpec a b n
        by_cases hn : n = 1
        · subst hn
          show npRound3 (npDivInt (.fin (b - a)) (1 - 1)) = spacingSpec a b 1
          rcases lt_trichotomy (b - a) 0 with h | h | h
          · simp [npDivInt, spacingSpec, npRound3, sub_self, h, h.not_lt]
          · simp [npDivInt, spacingSpec, npRound3, sub_self, h]
          · simp [npDivInt, spacingSpec, npRound3, sub_self, h, h.not_lt]
        · have h0 : n - 1 ≠ 0 := fun hc => hn (by omega)
          simp only [npDivInt, if_neg h0, npRound3, spacingSpec, if_neg hn]
          congr 2
          push_cast
          ring

end Xdrt

namespace Xdrt

/-- A model header for the spec §8 end-to-end example after its extents were
populated: uniform field, file-order shape `(2, 2, 1)`, extents `(0, 100)`,
`(0, 100)`, `(0, 50)` millimeters. -/
def h6 : XDRHeaderM :=
  { url := none
    field := "uniform".data
    ndim := 3
    shapeFile := [2, 2, 1]
    shape := [1, 2, 2]
    veclen := 1
    size := 4
    compression := 0
    original_dtype := "xdr_float".data
    dtype := "f4".data
    scan_to_siddon := none
    match_to_siddon := none
    phase := none
    metadata := []
    external_data := none
    min_ext := [.fin 0, .fin 0, .fin 0]
    max_ext := [.fin 100, .fin 100, .fin 50] }

/-- `h6` is exactly the header the pipeline builds for the spec §8 header
dictionary once the extents are filled in. -/
theorem h6_from_pipeline :
    (mkHeader (mkD [("ndim", "3"), ("dim1", "2"), ("dim2", "2"), ("dim3", "1"),
        ("veclen", "1"), ("field", "uniform"), ("data", "xdr_float")])).map
      (fun h => { h with min_ext := h6.min_ext, max_ext := h6.max_ext }) = .ok h6 := by
  decide

/-- C6 counterexample: on the uniform header with populated extents and a
size-one third dimension, `spacing` does NOT fail: it silently returns a
value whose third component is infinity (the numpy division-by-zero
warning path), refuting the claimed explicit error. -/
theorem C6_spacing_counterexample :
    spacingOf h6 = .ok [.fin 100, .fin 100, .inf] := by decide

/-- C6 (amended): for every uniform-field header with populated finite
extents matching the shape length, spacing succeeds and equals, elementwise,
`round((max − min) / (shape − 1), 3)` for dimensions of size at least 2,
while a size-one dimension silently yields infinity (extents differ) or NaN
(extents equal) instead of an explicit error. -/
theorem C6_spacing_amended (h : XDRHeaderM) (mn mx : List ℚ)
    (hf : h.field = "uniform".data)
    (hmn : h.min_ext = mn.map NpVal.fin) (hmx : h.max_ext = mx.map NpVal.fin)
    (hne : mn ≠ [])
    (hl1 : mn.length = h.shapeFile.length) (hl2 : mx.length = h.shapeFile.length) :
    spacingOf h = .ok (List.zipWith3 spacingSpec mn mx h.shapeFile) := by
  have hlen : h.max_ext.length = h.min_ext.length := by
    rw [hmn, hmx, List.length_map, List.length_map, hl1, hl2]
  have hguard : ¬(h.min_ext.isEmpty && !h.max_ext.isEmpty) = true := by
    rw [hmn]
    cases mn with
    | nil => exact absurd rfl hne
    | cons x xs => simp
  have hdiffl : (List.zipWith npSub h.max_ext h.min_ext).length = h.shapeFile.length := by
    rw [List.length_zipWith, hlen, Nat.min_self, hmn, List.length_map, hl1]
  unfold spacingOf
  rw [if_neg hguard]
  simp only [npBroadcast2_eq npSub h.max_ext h.min_ext hlen]
  rw [if_pos hf]
  simp only [npBroadcastShape_eq (fun v n => npDivInt v (n - 1))
    (List.zipWith npSub h.max_ext h.min_ext) h.shapeFile hdiffl]
  rw [hmn, hmx, spacingZip]

/-- C6 witness: the amended theorem applied to `h6` gives the rounded
quotients on the first two axes and the silent infinity on the third. -/
theorem C6_spacing_amended_witness :
    spacingOf h6 = .ok (List.zipWith3 spacingSpec [0, 0, 0] [100, 100, 50] [2, 2, 1]) :=
  C6_spacing_amended h6 [0, 0, 0] [100, 100, 50] rfl (by decide) (by decide)
    (by decide) (by decide) (by decide)

end Xdrt

namespace Xdrt

/-- The common 4-dimensional header dictionary for the phase examples. -/
def d7base : HDict :=
  mkD [("ndim", "4"), ("dim1", "2"), ("dim2", "2"), ("dim3", "2"), ("dim4", "2"),
    ("veclen", "1"), ("field", "uniform"), ("data", "xdr_float")]

/-- C7: a phase of matching length summing to `1.00005` is accepted; a sum
of `0.9998` is rejected with the descriptive `ValueError`; a phase with
`ndim = 3` is rejected with the descriptive `ValueError`; BUT a phase whose
length mismatches the time-axis extent is rejected with a `TypeError`
raised while formatting the message (`len(self.shape[0])` on line 148 calls
`len` on an int), not with the descriptive validation error the claim
requires. -/
theorem C7_phase_validation_eval :
    (mkHeader (d7base ++ mkD [("#$$PH", "0.5 0.50005")])).toOption.isSome = true ∧
    mkHeader (d7base ++ mkD [("#$$PH", "0.4999 0.4999")]) = .error .phaseSumError ∧
    mkHeader (mkD [("ndim", "3"), ("dim1", "2"), ("dim2", "2"), ("dim3", "2"),
        ("veclen", "1"), ("field", "uniform"), ("data", "xdr_float"),
        ("#$$PH", "0.4 0.6")]) = .error .phaseNdimError ∧
    mkHeader (d7base ++ mkD [("#$$PH", "0.3 0.3 0.4")]) = .error .phaseLenTypeError := by
  refine ⟨by decide, by decide, by decide, by decide⟩

end Xdrt

namespace Xdrt

/-! ### Post-processing (`xdr_reader.py`, `postprocess_xdr_image`, lines 396–436)

The decoded samples are exact rationals.  A 4-dimensional volume is the list
of its time slices (axis 0), each flattened; a 3-dimensional volume is one
flat list.  `temporal_average`, `slope`, `intercept` and `cast` mirror the
function's arguments; a falsy argument (`None`, empty string, `0.0`) is the
`none` / zero case of its model. -/

inductive NDData where
  | d4 (slices : List (List ℚ))
  | d3 (flat : List ℚ)
  deriving DecidableEq

/-- `XDRImage`: a header and its decoded data. -/
structure XDRImageM where
  header : XDRHeaderM
  data : NDData
  deriving DecidableEq

/-- A Python number: the `int` / `float` distinction matters because an
integer operand preserves integer sample kinds. -/
inductive PyNum where
  | int (n : Int)
  | float (q : ℚ)
  deriving DecidableEq

/-- `utils.make_integer` (lines 54–57): a float that is mathematically an
integer becomes the `int` of the same value. -/
def make_integer (z : ℚ) : PyNum := if z.den = 1 then .int z.num else .float z

/-- The numeric value of a Python number. -/
def PyNum.toRat : PyNum → ℚ
  | .int n => (n : ℚ)
  | .float q => q

inductive PpErr where
  | sysExitBadMode
  | sysExitNot4D
  | typeErrorNoneWeights
  | dataShapeMismatch
  | sysExitBadCast
  deriving DecidableEq

/-- `ndarray.sum(axis=0)`: elementwise sum of the slices. -/
def sumSlices : List (List ℚ) → List ℚ
  | [] => []
  | [s] => s
  | s :: rest => List.zipWith (fun a b => a + b) s (sumSlices rest)

/-- `weights * data.T` then `.T`: slice `i` is scaled by weight `i`. -/
def scaleSlices (w : List ℚ) (slices : List (List ℚ)) : List (List ℚ) :=
  List.zipWith (fun wi s => s.map (fun x => wi * x)) w slices

/-- An elementwise map over the data. -/
def ndMap (f : ℚ → ℚ) : NDData → NDData
  | .d4 s => .d4 (s.map (fun l => l.map f))
  | .d3 l => .d3 (l.map f)

/-- `DATATYPES` (utils.py lines 8–16), the cast whitelist. -/
def dataTypeNames : List (List Char) :=
  ["int16".data, "int32".data, "int64".data, "uint16".data, "uint32".data,
    "float32".data, "float64".data]

/-- Truncation toward zero (`astype` to an integer kind). -/
def truncToward0 (q : ℚ) : Int := Int.tdiv q.num (q.den : Int)

/-- Two's-complement wrap of a signed integer kind. -/
def wrapSigned (w : Nat) (t : Int) : Int :=
  let m := (2 : Int) ^ w
  let r := ((t % m) + m) % m
  if r ≥ 2 ^ (w - 1) then r - m else r

/-- Wrap of an unsigned integer kind. -/
def wrapUnsigned (w : Nat) (t : Int) : Int :=
  let m := (2 : Int) ^ w
  ((t % m) + m) % m

/-- `astype(DATATYPES[cast])` on one sample.  Integer kinds truncate toward
zero and wrap; the float kinds keep the exact value (binary rounding of the
float kinds is outside this model). -/
def castValue (c : List Char) (q : ℚ) : ℚ :=
  if c = "int16".data then ((wrapSigned 16 (truncToward0 q) : Int) : ℚ)
  else if c = "int32".data then ((wrapSigned 32 (truncToward0 q) : Int) : ℚ)
  else if c = "int64".data then ((wrapSigned 64 (truncToward0 q) : Int) : ℚ)
  else if c = "uint16".data then ((wrapUnsigned 16 (truncToward0 q) : Int) : ℚ)
  else if c = "uint32".data then ((wrapUnsigned 32 (truncToward0 q) : Int) : ℚ)
  else q

/-- The `weights` value of lines 412–417. -/
inductive WeightsM where
  | one
  | vec (w : List ℚ)
  | pyNone
  deriving DecidableEq

/-- `postprocess_xdr_image` (lines 396–436).  Note on the weighted branch:
`XDRHeader.__init__` always assigns `self.phase`, so
`hasattr(xdr_image.header, "phase")` is always true and the warning
fallback on line 415 is dead code; when the attribute holds `None`,
`weights` becomes `np.asarray(None)` and the multiplication on line 419
raises `TypeError`. -/
def postprocessM (tempAvg : Option (List Char)) (slope intercept : ℚ)
    (cast : Option (List Char)) (img : XDRImageM) : Except PpErr XDRImageM :=
  let step1 : Except PpErr XDRImageM :=
    match tempAvg with
    | none => .ok img
    | some m =>
        if ¬(m = "mean".data ∨ m = "weighted".data) then .error .sysExitBadMode
        else if img.header.ndim ≠ 4 then .error .sysExitNot4D
        else
          let weights : WeightsM :=
            if m = "weighted".data then
              match img.header.phase with
              | none => .pyNone
              | some w => .vec w
            else .one
          match weights, img.data with
          | .pyNone, _ => .error .typeErrorNoneWeights
          | .one, .d4 slices =>
              .ok ⟨{ img.header with ndim := 3 }, .d3 (sumSlices slices)⟩
          | .vec w, .d4 slices =>
              .ok ⟨{ img.header with ndim := 3 }, .d3 (sumSlices (scaleSlices w slices))⟩
          | _, .d3 _ => .error .dataShapeMismatch
  match step1 with
  | .error e => .error e
  | .ok img1 =>
      let img2 :=
        if slope ≠ 0 then
          { img1 with data := ndMap (fun x => x * (make_integer slope).toRat) img1.data }
        else img1
      let img3 :=
        if intercept ≠ 0 then
          { img2 with data := ndMap (fun x => x + (make_integer intercept).toRat) img2.data }
        else img2
      match cast with
      | none => .ok img3
      | some c =>
          if ¬(dataTypeNames.contains c = true) then .error .sysExitBadCast
          else .ok { img3 with data := ndMap (castValue c) img3.data }

end Xdrt

namespace Xdrt

/-- The 4D header dictionary with a valid phase vector `0.5 0.5`. -/
def d3ph : HDict :=
  mkD [("ndim", "4"), ("dim1", "1"), ("dim2", "1"), ("dim3", "1"), ("dim4", "2"),
    ("veclen", "1"), ("field", "uniform"), ("data", "xdr_float"),
    ("#$$PH", "0.5 0.5")]

/-- C3: a valid phase vector survives `__parse_header` but `__init__`
overwrites `self.phase` with `None` (line 72), so post-processing the
4-dimensional volume with `temporal_average = "weighted"` multiplies the
data by `np.asarray(None)` and raises `TypeError` instead of using the
phase as weights (and the claimed warning fallback is dead, since the
attribute always exists); the `mean` mode still works and sets the
dimensionality to 3. -/
theorem C3_weighted_phase_bug_eval :
    (parseHeaderCore d3ph).map (fun h => h.phase) = .ok (some [1 / 2, 1 / 2]) ∧
    (mkHeader d3ph).map (fun h => h.phase) = .ok none ∧
    (mkHeader d3ph).map (fun h =>
        postprocessM (some ("weighted".data)) 0 0 none ⟨h, .d4 [[1], [2]]⟩) =
      .ok (.error .typeErrorNoneWeights) ∧
    (mkHeader d3ph).map (fun h =>
        (postprocessM (some ("mean".data)) 0 0 none ⟨h, .d4 [[1], [2]]⟩).map
          (fun img => (img.header.ndim, img.data))) =
      .ok (.ok (3, .d3 [3])) := by
  refine ⟨by decide, by decide, by decide, by decide⟩

/-- C10: with `slope = 0.0` and `intercept = 0.0` (and no temporal average
or cast) the post-processor returns the image with the sample buffer
completely unchanged — Python's `if slope:` treats the zero float as
absent, so a caller cannot zero out a volume by passing `slope = 0`; and a
nonzero float that is mathematically an integer is applied through
`make_integer` as an integer operand of the same value. -/
theorem C10_zero_slope_skips (img : XDRImageM) (z : ℚ) :
    postprocessM none 0 0 none img = .ok img ∧
    (z ≠ 0 → z.den = 1 → make_integer z = .int z.num) ∧
    (make_integer z).toRat = z := by
  refine ⟨?_, ?_, ?_⟩
  · show postprocessM none 0 0 none img = .ok img
    unfold postprocessM
    simp
  · intro _ hden
    simp [make_integer, hden]
  · by_cases h : z.den = 1
    · have hz : ((z.num : ℚ)) = z := by
        have hd := Rat.num_div_den z
        rw [h] at hd
        simpa using hd
      simp [make_integer, h, PyNum.toRat, hz]
    · simp [make_integer, h, PyNum.toRat]

/-- C10 witness: the theorem applied to a concrete image and the integral
float `3.0`. -/
theorem C10_zero_slope_skips_witness :
    postprocessM none 0 0 none ⟨h6, .d3 [1, 2]⟩ = .ok ⟨h6, .d3 [1, 2]⟩ ∧
    make_integer 3 = .int 3 :=
  ⟨(C10_zero_slope_skips ⟨h6, .d3 [1, 2]⟩ 3).1,
    (C10_zero_slope_skips ⟨h6, .d3 [1, 2]⟩ 3).2.1 (by decide) (by decide)⟩

end Xdrt

namespace Xdrt

/-! ### Binary decoding: IEEE 754 binary32 and the trailing extents
(`xdr_reader.py`, `read`, lines 367–373) -/

/-- Decode four bytes as a big-endian IEEE 754 binary32 value.  Finite
values are exact rationals. -/
def decodeF4 (b0 b1 b2 b3 : Nat) : NpVal :=
  let bits : Nat := (b0 % 256) * 16777216 + (b1 % 256) * 65536 + (b2 % 256) * 256 + b3 % 256
  let s : Nat := bits / 2 ^ 31
  let e : Nat := (bits / 2 ^ 23) % 256
  let m : Nat := bits % 2 ^ 23
  if e = 255 then
    if m = 0 then (if s = 1 then .negInf else .inf) else .nan
  else
    let sign : ℚ := if s = 1 then -1 else 1
    if e = 0 then .fin (sign * ((m : ℚ) / ((2 ^ 149 : Nat) : ℚ)))
    else .fin (sign * ((((2 ^ 23 + m) * 2 ^ e : Nat) : ℚ) / ((2 ^ 150 : Nat) : ℚ)))

/-- The big-endian binary32 value at offset `o` of a byte list (missing
bytes default to 0; the callers guard the length). -/
def decodeF4At (bytes : List Nat) (o : Nat) : NpVal :=
  decodeF4 (bytes.getD o 0) (bytes.getD (o + 1) 0) (bytes.getD (o + 2) 0) (bytes.getD (o + 3) 0)


/-- Prepend one dimension's extent pair to the result of the remaining
iterations. -/
def consExt (mn mx : NpVal) :
    Except Unit (List NpVal × List NpVal × List Nat) →
      Except Unit (List NpVal × List NpVal × List Nat)
  | .error e => .error e
  | .ok (mns, mxs, rest) => .ok (mn :: mns, mx :: mxs, rest)

/-- Lines 367–370: per dimension read a big-endian f4 `min` then `max`,
each multiplied by 10 to millimeters, appending in dimension order.
`np.fromfile(count=1)` at end-of-stream yields an empty array and the `[0]`
subscript raises `IndexError` (the `Unit` error). -/
def readExtents (bytes : List Nat) : Nat → Except Unit (List NpVal × List NpVal × List Nat)
  | 0 => .ok ([], [], bytes)
  | n + 1 =>
      if 4 ≤ bytes.length then
        let mn := npScale10 (decodeF4At bytes 0)
        if 4 ≤ (bytes.drop 4).length then
          let mx := npScale10 (decodeF4At (bytes.drop 4) 0)
          consExt mn mx (readExtents (bytes.drop 8) n)
        else .error ()
      else .error ()

/-- Line 371–373 applied to the extents outcome: `.error false` is the
`IndexError`, `.error true` the `Unexpected extra bytes` `IOError`. -/
def checkRest :
    Except Unit (List NpVal × List NpVal × List Nat) →
      Except Bool (List NpVal × List NpVal)
  | .error _ => .error false
  | .ok (mns, mxs, rest) => if rest.isEmpty then .ok (mns, mxs) else .error true

/-- Lines 367–373 as one stage: read the extents, then require the stream
to be exactly at end-of-file. -/
def extentsAndCheck (bytes : List Nat) (n : Nat) :
    Except Bool (List NpVal × List NpVal) :=
  checkRest (readExtents bytes n)

/-- `getD` through `drop`. -/
theorem getD_drop (l : List Nat) (i j : Nat) : (l.drop i).getD j 0 = l.getD (i + j) 0 := by
  induction i generalizing l with
  | zero => simp
  | succ i ih =>
    cases l with
    | nil => simp
    | cons x xs =>
      show (xs.drop i).getD j 0 = (x :: xs).getD (i + 1 + j) 0
      rw [ih]
      have h : i + 1 + j = (i + j) + 1 := by omega
      rw [h]
      rfl

/-- `decodeF4At` through `drop`. -/
theorem decodeF4At_drop (l : List Nat) (i o : Nat) :
    decodeF4At (l.drop i) o = decodeF4At l (i + o) := by
  unfold decodeF4At
  rw [getD_drop, getD_drop, getD_drop, getD_drop]
  have h1 : i + (o + 1) = i + o + 1 := by omega
  have h2 : i + (o + 2) = i + o + 2 := by omega
  have h3 : i + (o + 3) = i + o + 3 := by omega
  rw [h1, h2, h3]

/-- The exact-consumption core of the extents reader. -/
theorem readExtents_exact : ∀ (n : Nat) (bytes : List Nat), 8 * n ≤ bytes.length →
    readExtents bytes n =
      .ok ((List.range n).map (fun i => npScale10 (decodeF4At bytes (8 * i))),
        (List.range n).map (fun i => npScale10 (decodeF4At bytes (8 * i + 4))),
        bytes.drop (8 * n)) := by
  intro n
  induction n with
  | zero => intro bytes _; simp [readExtents]
  | succ n ih =>
    intro bytes hlen
    have h4 : 4 ≤ bytes.length := by omega
    have h44 : 4 ≤ (bytes.drop 4).length := by
      rw [List.length_drop]; omega
    have h8 : 8 * n ≤ (bytes.drop 8).length := by
      rw [List.length_drop]; omega
    have e1 : npScale10 (decodeF4At bytes 0) = npScale10 (decodeF4At bytes (8 * 0)) := by
      norm_num
    have e2 : npScale10 (decodeF4At (bytes.drop 4) 0) =
        npScale10 (decodeF4At bytes (8 * 0 + 4)) := by
      rw [decodeF4At_drop]
    have e3 : (List.range n).map (fun i => npScale10 (decodeF4At (bytes.drop 8) (8 * i))) =
        (List.range n).map ((fun i => npScale10 (decodeF4At bytes (8 * i))) ∘ Nat.succ) := by
      refine List.map_congr_left ?_
      intro i _
      simp only [Function.comp_apply]
      rw [decodeF4At_drop]
      congr 2
      omega
    have e4 : (List.range n).map (fun i => npScale10 (decodeF4At (bytes.drop 8) (8 * i + 4))) =
        (List.range n).map ((fun i => npScale10 (decodeF4At bytes (8 * i + 4))) ∘ Nat.succ) := by
      refine List.map_congr_left ?_
      intro i _
      simp only [Function.comp_apply]
      rw [decodeF4At_drop]
      congr 2
      omega
    have e5 : (bytes.drop 8).drop (8 * n) = bytes.drop (8 * (n + 1)) := by
      rw [List.drop_drop]
      congr 1
      omega
    unfold readExtents
    rw [if_pos h4, if_pos h44, ih (bytes.drop 8) h8]
    simp only [consExt]
    rw [List.range_succ_eq_map]
    simp only [List.map_cons, List.map_map]
    rw [e3, e4, e5, e1, e2]

end Xdrt

namespace Xdrt

/-- C8: whenever at least `8 × n` bytes remain, the extents reader consumes
exactly `8 × n` of them — for each dimension `i` (in order) the big-endian
binary32 at offset `8 i` times 10 as `min` and the one at offset `8 i + 4`
times 10 as `max` — leaving exactly `bytes.drop (8 n)`; the subsequent
position check succeeds exactly at end-of-file, and any remaining byte
yields the `Unexpected extra bytes` hard error. -/
theorem C8_extents_exact (n : Nat) (bytes : List Nat) (h : 8 * n ≤ bytes.length) :
    readExtents bytes n =
      .ok ((List.range n).map (fun i => npScale10 (decodeF4At bytes (8 * i))),
        (List.range n).map (fun i => npScale10 (decodeF4At bytes (8 * i + 4))),
        bytes.drop (8 * n)) ∧
    (bytes.length = 8 * n → (extentsAndCheck bytes n).toOption.isSome = true) ∧
    (8 * n < bytes.length → extentsAndCheck bytes n = .error true) := by
  refine ⟨readExtents_exact n bytes h, ?_, ?_⟩
  · intro hlen
    unfold extentsAndCheck
    rw [readExtents_exact n bytes h]
    have hnil : bytes.drop (8 * n) = [] := List.drop_eq_nil_of_le (by omega)
    rw [hnil]
    simp [checkRest, Except.toOption]
  · intro hlt
    unfold extentsAndCheck
    rw [readExtents_exact n bytes h]
    have hpos : 0 < (bytes.drop (8 * n)).length := by
      rw [List.length_drop]; omega
    have hne : (bytes.drop (8 * n)).isEmpty = false := by
      cases hD : bytes.drop (8 * n) with
      | nil =>
        rw [hD, List.length_nil] at hpos
        exact absurd hpos (by omega)
      | cons a l => rfl
    simp only [checkRest, hne]
    rfl

/-- C8 witness: for `dimensionality = 3` and a 24-byte extents section of
six big-endian `1.0f` values, exactly 24 bytes are consumed, the three
`min` and three `max` extents each decode to `10` millimeters, and the
end-of-file check passes. -/
theorem C8_extents_exact_witness :
    readExtents [63, 128, 0, 0, 63, 128, 0, 0, 63, 128, 0, 0,
        63, 128, 0, 0, 63, 128, 0, 0, 63, 128, 0, 0] 3 =
      .ok ([.fin 10, .fin 10, .fin 10], [.fin 10, .fin 10, .fin 10], []) := by
  have h := (C8_extents_exact 3 [63, 128, 0, 0, 63, 128, 0, 0, 63, 128, 0, 0,
    63, 128, 0, 0, 63, 128, 0, 0, 63, 128, 0, 0] (by decide)).1
  exact h.trans (by decide)

end Xdrt

namespace Xdrt

/-! ### The full `read` (`xdr_reader.py`, lines 252–393)

The model tracks, besides the outcome, whether every stream handle the call
opened has been closed when the call ends (the `Bool` component).  Source
`close()` calls appear on lines 290, 346, 351, 372 and 375; every other exit
leaves the handle open. -/

/-- The bytes of an ASCII string. -/
def strBytes (s : String) : List Nat := s.data.map (fun c => c.toNat)

inductive ScanErr where
  | eofTypeError
  | unicodeDecodeError
  | magicMismatch
  deriving DecidableEq

/-- `"# AVS"`. -/
def magicBytes : List Nat := [35, 32, 65, 86, 83]

/-- The character loop of lines 274–293.  End-of-stream hits
`ord(b"")` (a `TypeError`, since `next_character == ""` is never true for
bytes); the terminator is a form feed immediately after a form feed; a byte
at least `0x80` among the first five raises `UnicodeDecodeError` from the
unguarded decode on line 286; the magic check fires while the sixth
character is processed. -/
def scanLoop : List Nat → List Nat → Bool → Nat → Except ScanErr (List Nat × List Nat)
  | [], _, _, _ => .error .eofTypeError
  | b :: rest, acc, ff, cnt =>
      if b = 12 ∧ ff then .ok (acc, rest)
      else
        if cnt ≤ 4 then
          if 128 ≤ b then .error .unicodeDecodeError
          else scanLoop rest (acc ++ [b]) (b = 12) (cnt + 1)
        else if cnt = 5 then
          if acc.take 5 ≠ magicBytes then .error .magicMismatch
          else scanLoop rest (acc ++ [b]) (b = 12) (cnt + 1)
        else scanLoop rest (acc ++ [b]) (b = 12) (cnt + 1)

/-- Lines 296–301: decode bytes to text, one character per byte below
`0x80`, the sentinel for the rest. -/
def decodeHeaderChars (bytes : List Nat) : List Char :=
  bytes.flatMap (fun b => if b < 128 then [Char.ofNat b] else sentinelChars)

/-- Line 307 then 308–319: the dictionary starts with `xdr_filename` and is
filled from the scanned lines. -/
def headerDictOf (xdrFilename : List Char) (textBytes : List Nat) : HDict :=
  ("xdr_filename".data, xdrFilename) :: headerPairsOfText (decodeHeaderChars textBytes)

inductive UncompErr where
  | dataKeyMissing
  | dtypeNotImplemented
  deriving DecidableEq

/-- The on-disk element width of a numpy dtype string. -/
def dtypeWidth (dt : List Char) : Nat :=
  if dt = "f8".data then 8
  else if dt = "i2".data then 2
  else if dt = "f4".data ∨ dt = "i4".data then 4
  else 1

/-- Lines 349–365, the uncompressed data read: `uint8` data is read by
`np.fromfile` WITHOUT a count, consuming every remaining byte; all other
kinds read `header.size * header.veclen` big-endian elements of their width
(`np.fromfile` silently reads fewer complete items when the stream is
short, and a negative count means read-to-end).  The result is the number
of elements read and the remaining bytes. -/
def uncompressedRead (d : HDict) (h : XDRHeaderM) (bytes : List Nat) :
    Except UncompErr (Nat × List Nat) :=
  match dictGet d ("data".data) with
  | none => .error .dataKeyMissing
  | some ds =>
      match xdrDtypeToPython ds with
      | none => .error .dtypeNotImplemented
      | some dt =>
          if dt = "uint8".data then .ok (bytes.length, [])
          else
            if h.size * h.veclen < 0 then
              .ok (bytes.length / dtypeWidth dt,
                bytes.drop (bytes.length / dtypeWidth dt * dtypeWidth dt))
            else
              .ok (min (h.size * h.veclen).toNat (bytes.length / dtypeWidth dt),
                bytes.drop (min (h.size * h.veclen).toNat
                  (bytes.length / dtypeWidth dt) * dtypeWidth dt))

inductive CompErr where
  | unavailable
  | cursorMismatch
  deriving DecidableEq

/-- Lines 326–347, the compressed data read.  The compressed range length
is `(file size) − (current offset) − ndim × 2 × 4`; the foreign codec fills
a `header.size`-element int16 buffer (its sample values are outside this
model; the element count is fixed by the `np.zeros(header.size)`
destination).  A cursor mismatch after the read is the `IOError` of line
347, which closes the stream first. -/
def compressedRead (avail : Bool) (h : XDRHeaderM) (fileSize pos : Nat) (bytes : List Nat) :
    Except CompErr (Nat × List Nat) :=
  if ¬avail then .error .unavailable
  else
    if ((fileSize : Int) - h.ndim * 2 * 4 - (pos : Int)) < 0 then
      if ((pos + bytes.length : Nat) : Int) ≠ (fileSize : Int) - h.ndim * 2 * 4 then
        .error .cursorMismatch
      else .ok (h.size.toNat, bytes.drop bytes.length)
    else
      if ((pos + min ((fileSize : Int) - h.ndim * 2 * 4 - (pos : Int)).toNat bytes.length : Nat) : Int) ≠
          (fileSize : Int) - h.ndim * 2 * 4 then
        .error .cursorMismatch
      else
        .ok (h.size.toNat,
          bytes.drop (min ((fileSize : Int) - h.ndim * 2 * 4 - (pos : Int)).toNat bytes.length))

inductive RdErr where
  | typeErrorEofOrd
  | unicodeDecodeError
  | magicMismatch
  | hdr (e : HdrErr)
  | decompressionUnavailable
  | compCursorMismatch
  | externalMissing
  | dtypeNotImplemented
  | indexError
  | unexpectedExtraBytes
  | dimExtentMismatch
  | reshapeError
  deriving DecidableEq

/-- One invocation's input: the file bytes, the filename recorded in the
dictionary, the two flags, and the content of the external payload file
when it exists. -/
structure ReadInput where
  fileBytes : List Nat
  xdrFilename : List Char
  stopBeforeData : Bool
  decompAvailable : Bool
  externalBytes : Option (List Nat)
  deriving DecidableEq

/-- The outcome: the header (extents filled on the full path) and the
element count of the decoded buffer (`none` when `stop_before_data`). -/
structure ReadResult where
  header : XDRHeaderM
  dataCount : Option Nat
  deriving DecidableEq

/-- Lines 367–393 after the data read: the extents (an `IndexError` leaves
the handle open), the end-of-file check of line 371 (closes, then raises
`Unexpected extra bytes`), the `close()` of line 375, the dimension/extent
length check of line 377 and the reshape of line 392 (both after the
close). -/
def finishRead (h : XDRHeaderM) (cnt : Nat) (streamRest : List Nat) (tellAfterData : Nat)
    (origSize : Nat) : Except RdErr ReadResult × Bool :=
  match readExtents streamRest h.ndim.toNat with
  | .error _ => (.error .indexError, false)
  | .ok (mns, mxs, rest2) =>
      if tellAfterData + (streamRest.length - rest2.length) ≠ origSize then
        (.error .unexpectedExtraBytes, true)
      else if ¬(h.ndim = (mns.length : Int) ∧ (mns.length : Int) = (mxs.length : Int)) then
        (.error .dimExtentMismatch, true)
      else if (cnt : Int) ≠ h.size * h.veclen then (.error .reshapeError, true)
      else (.ok ⟨{ h with min_ext := mns, max_ext := mxs }, some cnt⟩, true)

/-- `read` (lines 252–393).  The `Bool` is true iff every handle the call
opened is closed when it ends: `close()` precedes the magic-mismatch raise
(line 290), the compressed-cursor raise (line 346), the extra-bytes raise
(line 372) and the normal completion (line 375); header-construction
errors, the `stop_before_data` return, the decompression-unavailable raise,
the unsupported-dtype raise and the truncated-extents `IndexError`
propagate with the handle open.  When an external payload is referenced the
original handle is closed first (line 351) and the flag then tracks the
external handle. -/
def readM (inp : ReadInput) : Except RdErr ReadResult × Bool :=
  match scanLoop inp.fileBytes [] false 0 with
  | .error .eofTypeError => (.error .typeErrorEofOrd, false)
  | .error .unicodeDecodeError => (.error .unicodeDecodeError, false)
  | .error .magicMismatch => (.error .magicMismatch, true)
  | .ok (textBytes, rest) =>
      match mkHeader (headerDictOf inp.xdrFilename textBytes) with
      | .error e => (.error (.hdr e), false)
      | .ok h =>
          if inp.stopBeforeData then (.ok ⟨h, none⟩, false)
          else if h.compression > 0 then
            match compressedRead inp.decompAvailable h inp.fileBytes.length
                (inp.fileBytes.length - rest.length) rest with
            | .error .unavailable => (.error .decompressionUnavailable, false)
            | .error .cursorMismatch => (.error .compCursorMismatch, true)
            | .ok (cnt, rest2) =>
                finishRead h cnt rest2 (inp.fileBytes.length - rest2.length)
                  inp.fileBytes.length
          else if (match h.external_data with
              | some s => !s.isEmpty
              | none => false) then
            match inp.externalBytes with
            | none => (.error .externalMissing, true)
            | some ebytes =>
                match uncompressedRead (headerDictOf inp.xdrFilename textBytes) h ebytes with
                | .error .dataKeyMissing =>
                    (.error (.hdr (.keyMissing ("data".data))), false)
                | .error .dtypeNotImplemented => (.error .dtypeNotImplemented, false)
                | .ok (cnt, rest2) =>
                    finishRead h cnt rest2 (ebytes.length - rest2.length)
                      inp.fileBytes.length
          else
            match uncompressedRead (headerDictOf inp.xdrFilename textBytes) h rest with
            | .error .dataKeyMissing =>
                (.error (.hdr (.keyMissing ("data".data))), false)
            | .error .dtypeNotImplemented => (.error .dtypeNotImplemented, false)
            | .ok (cnt, rest2) =>
                finishRead h cnt rest2 (inp.fileBytes.length - rest2.length)
                  inp.fileBytes.length

/-- The finish stage closes the stream on its `Unexpected extra bytes`
error and on success. -/
theorem finishRead_closed (h : XDRHeaderM) (cnt : Nat) (rest : List Nat) (tell size : Nat) :
    ((finishRead h cnt rest tell size).1 = .error .magicMismatch →
      (finishRead h cnt rest tell size).2 = true) ∧
    ((finishRead h cnt rest tell size).1 = .error .compCursorMismatch →
      (finishRead h cnt rest tell size).2 = true) ∧
    ((finishRead h cnt rest tell size).1 = .error .unexpectedExtraBytes →
      (finishRead h cnt rest tell size).2 = true) ∧
    (∀ r, (finishRead h cnt rest tell size).1 = .ok r → r.dataCount.isSome = true →
      (finishRead h cnt rest tell size).2 = true) := by
  unfold finishRead
  split
  · exact ⟨by simp, by simp, by simp, by simp⟩
  · split
    · exact ⟨by simp, by simp, by simp, by simp⟩
    · split
      · exact ⟨by simp, by simp, by simp, by simp⟩
      · split
        · exact ⟨by simp, by simp, by simp, by simp⟩
        · exact ⟨by simp, by simp, by simp, by simp⟩

end Xdrt

namespace Xdrt

/-- The header text of the byte-valued example file. -/
def hdrText5 : String :=
  "# AVS\nndim=3\ndim1=2\ndim2=2\ndim3=1\nveclen=1\nfield=uniform\ndata=byte\n"

/-- A 24-byte trailing extents section (six big-endian `1.0f`). -/
def ext24 : List Nat :=
  [63, 128, 0, 0, 63, 128, 0, 0, 63, 128, 0, 0, 63, 128, 0, 0, 63, 128, 0, 0, 63, 128, 0, 0]

/-- The byte-valued (`data=byte`) file: 4 payload bytes then the extents. -/
def file5 : List Nat := strBytes hdrText5 ++ [12, 12] ++ [1, 2, 3, 4] ++ ext24

/-- Its raw dictionary (the scanned text keeps the first form feed). -/
def d5 : HDict := headerDictOf ("f.xdr".data) (strBytes hdrText5 ++ [12])

/-- The same file with two-byte samples: `data=xdr_short`, 8 payload
bytes, the same extents. -/
def file5s : List Nat :=
  strBytes
      "# AVS\nndim=3\ndim1=2\ndim2=2\ndim3=1\nveclen=1\nfield=uniform\ndata=xdr_short\n" ++
    [12, 12] ++ [0, 1, 0, 2, 0, 3, 0, 4] ++ ext24

/-- C5: the claim says byte-valued (uint8) data is read as exactly
`shape_product × vector_length` elements, leaving the stream at the
extents.  Evaluating the code on a `2×2×1`, `veclen=1`, `data=byte` file
with 4 payload bytes and 24 extent bytes: the `np.fromfile` call without a
count consumes all 28 remaining bytes (28 elements, empty remainder,
although `size × veclen = 4`), so the subsequent extents read hits
end-of-file and the whole read fails with `IndexError` (stream left open).
The same file with `data=xdr_short` (two-byte big-endian samples) reads
exactly 4 elements and succeeds. -/
theorem C5_uint8_count_bug_eval :
    readM ⟨file5, "f.xdr".data, false, true, none⟩ = (.error .indexError, false) ∧
    (mkHeader d5).map (fun h => uncompressedRead d5 h ([1, 2, 3, 4] ++ ext24)) =
      .ok (.ok (28, [])) ∧
    (mkHeader d5).map (fun h => h.size * h.veclen) = .ok 4 ∧
    (readM ⟨file5s, "f.xdr".data, false, true, none⟩).1.map (fun r => r.dataCount) =
      .ok (some 4) ∧
    (readM ⟨file5s, "f.xdr".data, false, true, none⟩).2 = true := by
  refine ⟨by decide, by decide, by decide, by decide, by decide⟩

end Xdrt

namespace Xdrt

/-- A well-formed header-only file used for the `stop_before_data` return. -/
def file9ok : List Nat :=
  strBytes "# AVS\nndim=1\ndim1=1\nveclen=1\nfield=uniform\ndata=byte\n" ++ [12, 12]

/-- The `stop_before_data` invocation. -/
def inp9stop : ReadInput := ⟨file9ok, "f.xdr".data, true, true, none⟩

/-- A compressed file read while the decompression codec is unavailable. -/
def inp9comp : ReadInput :=
  ⟨strBytes
        "# AVS\nndim=1\ndim1=1\nveclen=1\nfield=uniform\ndata=xdr_short\nnki_compression=1\n" ++
      [12, 12] ++ [0, 0, 0, 0],
    "f.xdr".data, false, false, none⟩

/-- C9 counterexample: a file whose header lacks the required `ndim` key
makes `XDRHeader` raise after the scan, and the error propagates with the
stream handle still open — the stream is NOT closed on this exit path,
refuting the claimed release on every exit path. -/
theorem C9_close_counterexample :
    readM ⟨strBytes "# AVS\nfield=uniform\n" ++ [12, 12], "f.xdr".data, false, true, none⟩ =
      (.error (.hdr (.requiredKeyMissing ("ndim".data))), false) := by decide

/-- C9 (amended): the stream is closed before the magic-mismatch error, the
compressed-cursor-mismatch error, the unexpected-extra-bytes error and on
every successful full read; but the `stop_before_data` return leaves the
handle open, as does the decompression-unavailable failure (and, per the
counterexample, every header-validation failure). -/
theorem C9_stream_release_amended (inp : ReadInput) :
    ((readM inp).1 = .error .magicMismatch → (readM inp).2 = true) ∧
    ((readM inp).1 = .error .compCursorMismatch → (readM inp).2 = true) ∧
    ((readM inp).1 = .error .unexpectedExtraBytes → (readM inp).2 = true) ∧
    (∀ r, (readM inp).1 = .ok r → r.dataCount.isSome = true → (readM inp).2 = true) ∧
    (readM inp9stop).1.map (fun r => r.dataCount) = .ok none ∧
    (readM inp9stop).2 = false ∧
    readM inp9comp = (.error .decompressionUnavailable, false) := by
  have hmain :
      ((readM inp).1 = .error .magicMismatch → (readM inp).2 = true) ∧
      ((readM inp).1 = .error .compCursorMismatch → (readM inp).2 = true) ∧
      ((readM inp).1 = .error .unexpectedExtraBytes → (readM inp).2 = true) ∧
      (∀ r, (readM inp).1 = .ok r → r.dataCount.isSome = true → (readM inp).2 = true) := by
    unfold readM
    repeat' split
    all_goals
      first
        | exact finishRead_closed _ _ _ _ _
        | exact ⟨by simp, by simp, by simp, by simp⟩
  exact ⟨hmain.1, hmain.2.1, hmain.2.2.1, hmain.2.2.2, by decide, by decide, by decide⟩

/-- C9 witness: the amended theorem instantiated at a magic-mismatch file
shows the stream closed there. -/
theorem C9_stream_release_amended_witness :
    (readM ⟨strBytes "#XAVS\nndim=1\n" ++ [12, 12], "f.xdr".data, false, true, none⟩).1 =
        .error .magicMismatch ∧
      (readM ⟨strBytes "#XAVS\nndim=1\n" ++ [12, 12], "f.xdr".data, false, true, none⟩).2 =
        true :=
  ⟨by decide,
    (C9_stream_release_amended ⟨strBytes "#XAVS\nndim=1\n" ++ [12, 12],
      "f.xdr".data, false, true, none⟩).1 (by decide)⟩

end Xdrt
